import Mathlib

/-!
sabakan: crypts ledger, configuration record and IPAM address partitioner.

A shallow embedding of `crypts.go` and `config.go` over a model of the etcd
key-value store, together with the address partitioner exercised by
`ipam_test.go`, and the properties of the specification proved (or refuted)
against it.

Conventions:
* the etcd store is a finite map from keys to values carrying a create
  revision; a key that is absent has create revision `0`;
* a handler is a function from the store before the request to the store
  after it, the calls made on the `http.ResponseWriter` in order, and the
  session and mutex calls in order;
* an RPC that returns an error is an input of the handler (`some msg`);
* IPv4 addresses are natural numbers, 32-bit arithmetic is explicit `% 2^32`.
-/

namespace Sabakan

/-! ## Go's `path.Join` -/

/-- Split a path at every `/` (the pieces may be empty). -/
def splitSlash : List Char → List (List Char)
  | [] => [[]]
  | c :: cs =>
    match splitSlash cs with
    | [] => [[]]
    | h :: t => if c = '/' then [] :: h :: t else (c :: h) :: t

/-- One step of `path.Clean` over the components kept so far (innermost
first): empty and `.` components are skipped, `..` removes the last kept
component, is dropped at the root, and is kept in front of a relative path. -/
def cleanStep (rooted : Bool) (out : List (List Char)) (comp : List Char) : List (List Char) :=
  if comp = [] ∨ comp = ['.'] then out
  else if comp = ['.', '.'] then
    match out with
    | [] => if rooted then [] else [comp]
    | top :: rest => if top = ['.', '.'] then comp :: out else rest
  else comp :: out

/-- Go's `path.Clean` on the characters of a path. -/
def pathClean (p : List Char) : List Char :=
  match p with
  | [] => ['.']
  | c :: _ =>
    let rooted : Bool := c = '/'
    let comps := ((splitSlash p).foldl (cleanStep rooted) []).reverse
    let body := List.intercalate ['/'] comps
    if rooted then '/' :: body
    else if body = [] then ['.'] else body

/-- Go's `path.Join`: the non-empty elements joined by `/`, then cleaned; the
empty string when every element is empty. -/
def pathJoin (elem : List String) : String :=
  let parts := (elem.map String.data).filter (fun e => e ≠ [])
  match parts with
  | [] => ""
  | _ => String.mk (pathClean (List.intercalate ['/'] parts))

/-! ## The etcd store -/

/-- What etcd keeps for a key: its value and the revision that created it
(never `0` for a key that exists). -/
structure StoredValue where
  Value : String
  CreateRevision : ℕ+
  deriving DecidableEq

/-- An etcd store: the revision of the last write and a finite map of keys. -/
structure Store where
  Revision : Nat
  kvs : AList (fun _ : String => StoredValue)
  deriving DecidableEq

/-- A key-value pair as returned in a `clientv3.GetResponse`. -/
structure KeyValue where
  Key : String
  Value : String
  CreateRevision : Nat
  deriving DecidableEq, Repr

/-- The part of `clientv3.GetResponse` the handlers read. -/
structure GetResponse where
  Kvs : List KeyValue
  Count : Nat
  deriving DecidableEq, Repr

/-- Byte order on keys, the order etcd returns a range in. -/
def keyLE : List Char → List Char → Bool
  | [], _ => true
  | _ :: _, [] => false
  | a :: as, b :: bs => a.toNat < b.toNat || (a.toNat = b.toNat && keyLE as bs)

/-- The store with no key. -/
def Store.empty : Store := ⟨1, ∅⟩

/-- The create revision of a key, `0` when the key does not exist. -/
def Store.createRevision (s : Store) (key : String) : Nat :=
  match s.kvs.lookup key with
  | none => 0
  | some v => v.CreateRevision

/-- The method `client.Get(ctx, key)`: a point read. -/
def Store.get (s : Store) (key : String) : GetResponse :=
  match s.kvs.lookup key with
  | none => ⟨[], 0⟩
  | some v => ⟨[⟨key, v.Value, v.CreateRevision⟩], 1⟩

/-- The entries whose key starts with `pfx`. -/
def Store.scan (s : Store) (pfx : String) : List (Sigma fun _ : String => StoredValue) :=
  s.kvs.entries.filter (fun e => pfx.data.isPrefixOf e.1.data)

/-- The method `client.Get(ctx, key, clientv3.WithPrefix())`: every key that
starts with `pfx`, in key order. -/
def Store.getPrefix (s : Store) (pfx : String) : GetResponse :=
  let found := (s.scan pfx).insertionSort (fun a b => keyLE a.1.data b.1.data = true)
  ⟨found.map (fun e => ⟨e.1, e.2.Value, e.2.CreateRevision⟩), found.length⟩

/-- The method `client.Put(ctx, key, val)`: a new key is created at the new
revision, an existing key keeps its create revision. -/
def Store.put (s : Store) (key val : String) : Store :=
  match s.kvs.lookup key with
  | none => ⟨s.Revision + 1, s.kvs.insert key ⟨val, Nat.succPNat s.Revision⟩⟩
  | some v => ⟨s.Revision + 1, s.kvs.insert key ⟨val, v.CreateRevision⟩⟩

/-- The store without the keys that start with `pfx`. -/
def Store.erasePrefix (s : Store) (pfx : String) : AList (fun _ : String => StoredValue) :=
  ⟨s.kvs.entries.filter (fun e => !pfx.data.isPrefixOf e.1.data),
    List.NodupKeys.sublist (List.filter_sublist _) s.kvs.nodupKeys⟩

/-- The method `client.Delete(ctx, key, clientv3.WithPrefix())`: the new store
and `DeleteResponse.Deleted`. -/
def Store.deletePrefix (s : Store) (pfx : String) : Store × Nat :=
  let n := (s.scan pfx).length
  (⟨if n = 0 then s.Revision else s.Revision + 1, s.erasePrefix pfx⟩, n)

/-- A comparison of a transaction: `clientv3.Compare(clientv3.CreateRevision(key), "=", v)`. -/
structure Cmp where
  key : String
  createRevisionEq : Nat

/-- An operation of a transaction: `clientv3.OpPut(key, val)`. -/
structure Op where
  key : String
  val : String

/-- Whether every comparison of a transaction holds in the store. -/
def Store.holds (s : Store) (cmps : List Cmp) : Bool :=
  cmps.all (fun c => s.createRevision c.key = c.createRevisionEq)

/-- The transaction `Txn(ctx).If(cmps).Then(thenOps).Else(elseOps).Commit()`:
the new store and `TxnResponse.Succeeded`. -/
def Store.commit (s : Store) (cmps : List Cmp) (thenOps elseOps : List Op) : Store × Bool :=
  if s.holds cmps then (thenOps.foldl (fun st o => st.put o.key o.val) s, true)
  else (elseOps.foldl (fun st o => st.put o.key o.val) s, false)

/-! ## Responses and session calls -/

/-- The JSON body of a crypts record (`crypts.go`). -/
structure cryptEntity where
  Path : String
  Key : String
  deriving DecidableEq, Repr

/-- One element of the body of a crypts deletion (`crypts.go`). -/
structure deleteResponseEntity where
  Path : String
  deriving DecidableEq, Repr

/-- The body of a crypts deletion (`crypts.go`). -/
abbrev deleteResponse := List deleteResponseEntity

/-- A value handed to `respWriter` to be written as JSON. -/
inductive Body where
  | entity (e : cryptEntity)
  | deleted (l : deleteResponse)
  deriving DecidableEq, Repr

/-- A call made on the `http.ResponseWriter`, directly or through the helpers
`respError`, `respWriter` (crypts) and `renderError` (config), which write the
given status and the error text or the JSON body. -/
inductive Call where
  | respError (err : String) (status : Nat)
  | respWriter (body : Body) (status : Nat)
  | renderError (err : String) (status : Nat)
  | setHeader (key val : String)
  | writeHeader (status : Nat)
  | write (bytes : String)
  deriving DecidableEq, Repr

/-- A call on the etcd session or on the mutex `/sabakan-post-crypts-lock/`,
with whether it returned without error; `closeNil` is the deferred `Close` on
the nil session left by a failed `NewSession`. -/
inductive SyncCall where
  | newSession (ok : Bool)
  | lock (ok : Bool)
  | unlock (ok : Bool)
  | close
  | closeNil
  deriving DecidableEq, Repr

/-- What a handler did: the store it leaves, its calls on the response
writer, and its calls on the session and the mutex, each in order. -/
structure Outcome where
  store : Store
  resp : List Call
  sync : List SyncCall
  deriving DecidableEq

/-- The effect of one session call on whether the mutex is held: `Lock` that
returns nil takes it, `Unlock` that returns nil gives it back, and closing the
session revokes its lease, which removes the mutex key. -/
def lockStep (held : Bool) : SyncCall → Bool
  | .lock true => true
  | .unlock true => false
  | .close => false
  | _ => held

/-- Whether the mutex is held once all of `calls` have been made, in order. -/
def lockHeld (calls : List SyncCall) : Bool := calls.foldl lockStep false

/-! ## crypts.go -/

/-- The receiver of the crypts handlers; `Prefix` is the field `prefix`. -/
structure etcdClient where
  Prefix : String

/-- The function `govalidator.IsNull`. -/
def IsNull (str : String) : Bool := str.length = 0

/-- The function `makeDeleteResponse`: one entity per key-value of the scan,
its `Path` the etcd key; `serial` is not used. -/
def makeDeleteResponse (gresp : GetResponse) (_serial : String) : Except String deleteResponse :=
  .ok (gresp.Kvs.foldl (fun entities ev => entities ++ [⟨ev.Key⟩]) [])

/-- What the environment does during one `handleCryptsGet`. -/
structure GetRun where
  getErr : Option String
  writerErr : Option String

/-- The handler `handleCryptsGet` for `GET /crypts/{serial}/{path}`. -/
def handleCryptsGet (run : GetRun) (e : etcdClient) (serial diskPath : String) (st : Store) : Outcome :=
  let target := pathJoin [e.Prefix, "crypts", serial, diskPath]
  match run.getErr with
  | some err => ⟨st, [.respError err 500], []⟩
  | none =>
    let resp := st.get target
    if resp.Count = 0 then
      ⟨st, [.respError ("target " ++ target ++ " not found") 404], []⟩
    else
      match resp.Kvs with
      | [] => ⟨st, [], []⟩
      | ev :: _ =>
        let entity : cryptEntity := ⟨diskPath, ev.Value⟩
        match run.writerErr with
        | some err => ⟨st, [.respWriter (.entity entity) 200, .respError err 500], []⟩
        | none => ⟨st, [.respWriter (.entity entity) 200], []⟩

/-- What the environment does during one `handleCryptsPost`: the error each
call returns, if any, and what other clients write between the read of the
target and the commit of the transaction. -/
structure PostRun where
  sessionErr : Option String
  lockErr : Option String
  getErr : Option String
  between : Store → Store
  txnErr : Option String
  unlockErr : Option String
  writerErr : Option String

/-- The handler `handleCryptsPost` for `POST /crypts/{serial}`; `body` is the
result of decoding the request body into a `cryptEntity`. -/
def handleCryptsPost (run : PostRun) (e : etcdClient) (serial : String)
    (body : Except String cryptEntity) (st : Store) : Outcome :=
  match body with
  | .error err => ⟨st, [.respError err 500], []⟩
  | .ok received =>
    let diskPath := received.Path
    let key := received.Key
    if IsNull diskPath then
      ⟨st, [.respError "`diskPath` should not be empty" 400], []⟩
    else if IsNull key then
      ⟨st, [.respError "`key` should not be empty" 400], []⟩
    else
      match run.sessionErr with
      | some err => ⟨st, [.respError err 500], [.newSession false, .closeNil]⟩
      | none =>
        match run.lockErr with
        | some err => ⟨st, [.respError err 500], [.newSession true, .lock false, .close]⟩
        | none =>
          let target := pathJoin [e.Prefix, "crypts", serial, diskPath]
          match run.getErr with
          | some err => ⟨st, [.write (err ++ "\n")], [.newSession true, .lock true, .close]⟩
          | none =>
            let prev := st.get target
            if prev.Count = 1 then
              ⟨st, [.respError ("target " ++ target ++ " exists") 400],
                [.newSession true, .lock true, .close]⟩
            else
              let st1 := run.between st
              match run.txnErr with
              | some err => ⟨st1, [.respError err 500], [.newSession true, .lock true, .close]⟩
              | none =>
                let st2 := (st1.commit [⟨target, 0⟩] [⟨target, key⟩] []).1
                match run.unlockErr with
                | some err =>
                  ⟨st2, [.respError err 500],
                    [.newSession true, .lock true, .unlock false, .close]⟩
                | none =>
                  let entity : cryptEntity := ⟨diskPath, key⟩
                  match run.writerErr with
                  | some err =>
                    ⟨st2, [.respWriter (.entity entity) 201, .respError err 500],
                      [.newSession true, .lock true, .unlock true, .close]⟩
                  | none =>
                    ⟨st2, [.respWriter (.entity entity) 201],
                      [.newSession true, .lock true, .unlock true, .close]⟩

/-- What the environment does during one `handleCryptsDelete`. -/
structure DeleteRun where
  getErr : Option String
  between : Store → Store
  deleteErr : Option String
  writerErr : Option String

/-- The handler `handleCryptsDelete` for `DELETE /crypts/{serial}`. -/
def handleCryptsDelete (run : DeleteRun) (_e : etcdClient) (serial : String) (st : Store) : Outcome :=
  match run.getErr with
  | some err => ⟨st, [.respError err 500], []⟩
  | none =>
    let gresp := st.getPrefix ("/crypts/" ++ serial)
    if gresp.Kvs.length = 0 then
      ⟨st, [.respError "target not found" 404], []⟩
    else
      let st1 := run.between st
      match run.deleteErr with
      | some err => ⟨st1, [.respError err 500], []⟩
      | none =>
        let dresp := st1.deletePrefix ("/crypts/" ++ serial)
        if dresp.2 = 0 then
          ⟨dresp.1, [.respError "failed to delete" 500], []⟩
        else
          match makeDeleteResponse gresp serial with
          | .error err =>
            ⟨dresp.1, [.respError err 500, .respWriter (.deleted []) 200], []⟩
          | .ok entities =>
            match run.writerErr with
            | some err =>
              ⟨dresp.1, [.respWriter (.deleted entities) 200, .respError err 500], []⟩
            | none => ⟨dresp.1, [.respWriter (.deleted entities) 200], []⟩

/-- A run of `handleCryptsGet` in which no call fails. -/
def GetRun.quiet : GetRun := ⟨none, none⟩

/-- A run of `handleCryptsPost` in which no call fails and no other client
writes. -/
def PostRun.quiet : PostRun := ⟨none, none, none, id, none, none, none⟩

/-- A run of `handleCryptsDelete` in which no call fails and no other client
writes. -/
def DeleteRun.quiet : DeleteRun := ⟨none, id, none, none⟩

/-! ## config.go -/

/-- The structure of the sabakan option (`Config`). -/
structure Config where
  NodeIPv4Offset : String
  NodeRackShift : Nat
  BMCIPv4Offset : String
  BMCRackShift : Nat
  NodeIPPerNode : Nat
  BMCIPPerNode : Nat
  deriving DecidableEq, Repr

/-- The receiver of the config handlers. -/
structure EtcdClient where
  Prefix : String

/-- The etcd key name for the sabakan option. -/
def EtcdKeyConfig : String := "/config"
/-- The etcd key name for machines management. -/
def EtcdKeyMachines : String := "/machines"
/-- The etcd key name for crypts management. -/
def EtcdKeyCrypts : String := "/crypts"
/-- The error message when a target value is invalid. -/
def ErrorInvalidValue : String := "invalid value"
/-- The error message when a target value is not found. -/
def ErrorValueNotFound : String := "value not found"
/-- The error message when the machines key exists in etcd. -/
def ErrorMachinesExist : String := "machines already exist"
/-- The error message when a target value already exists. -/
def ErrorValueAlreadyExists : String := "value already exists"

/-- The method `Config.validate`, `none` for a nil error; `parseCIDR` is
`net.ParseCIDR`, `none` when it returns an error. -/
def Config.validate {α : Type} (parseCIDR : String → Option α) (c : Config) : Option String :=
  if (parseCIDR c.NodeIPv4Offset).isNone then
    some ("node-ipv4-offset: " ++ ErrorInvalidValue)
  else if c.NodeRackShift = 0 then
    some ("node-rack-shift: " ++ ErrorValueNotFound)
  else if (parseCIDR c.BMCIPv4Offset).isNone then
    some ("bmc-ipv4-offset: " ++ ErrorInvalidValue)
  else if c.BMCRackShift = 0 then
    some ("bmc-rack-shift: " ++ ErrorValueNotFound)
  else if c.NodeIPPerNode = 0 then
    some ("node-ip-per-node: " ++ ErrorValueNotFound)
  else if c.BMCIPPerNode = 0 then
    some ("bmc-ip-per-node: " ++ ErrorValueNotFound)
  else none

/-- What the environment does during one config request: the error each
store call returns, if any, and the result of `json.Marshal`. -/
structure ConfigRun where
  getErr : Option String
  marshal : Config → Except String String
  putErr : Option String

/-- The handler `handleGetConfig` for `GET /config`. -/
def handleGetConfig (run : ConfigRun) (e : EtcdClient) (st : Store) : Outcome :=
  let key := pathJoin [e.Prefix, EtcdKeyConfig]
  match run.getErr with
  | some err => ⟨st, [.renderError err 500], []⟩
  | none =>
    match (st.get key).Kvs with
    | [] => ⟨st, [.renderError ErrorValueNotFound 404], []⟩
    | kv :: _ =>
      ⟨st, [.setHeader "Content-Type" "application/json", .writeHeader 200, .write kv.Value], []⟩

/-- The handler `handlePostConfig` for `POST /config`; `body` is the result of
decoding the request body into a `Config`. -/
def handlePostConfig {α : Type} (parseCIDR : String → Option α) (run : ConfigRun)
    (e : EtcdClient) (body : Except String Config) (st : Store) : Outcome :=
  let key := pathJoin [e.Prefix, EtcdKeyMachines]
  match run.getErr with
  | some err => ⟨st, [.renderError err 500], []⟩
  | none =>
    let resp := st.getPrefix key
    if resp.Count ≠ 0 then
      ⟨st, [.renderError ErrorMachinesExist 403], []⟩
    else
      let hdr := Call.setHeader "Content-Type" "application/json"
      match body with
      | .error err => ⟨st, [hdr, .renderError err 400], []⟩
      | .ok sc =>
        match sc.validate parseCIDR with
        | some err => ⟨st, [hdr, .renderError err 400], []⟩
        | none =>
          match run.marshal sc with
          | .error err => ⟨st, [hdr, .renderError err 500], []⟩
          | .ok j =>
            match run.putErr with
            | some err => ⟨st, [hdr, .renderError err 500], []⟩
            | none => ⟨st.put (pathJoin [e.Prefix, EtcdKeyConfig]) j, [hdr, .writeHeader 200], []⟩

/-! ## IPv4 addresses and `net.ParseCIDR` -/

/-- The dotted-decimal text of the 32-bit address `n % 2^32` (`net.IP.String`
of an IPv4 address). -/
def ipString (n : Nat) : String :=
  let a := n % 2 ^ 32
  toString (a / 2 ^ 24) ++ "." ++ toString (a / 2 ^ 16 % 256) ++ "." ++
    toString (a / 2 ^ 8 % 256) ++ "." ++ toString (a % 256)

/-- The value of a non-empty string of decimal digits. -/
def parseDec (cs : List Char) : Option Nat :=
  if cs = [] then none
  else cs.foldl (fun acc c =>
    match acc with
    | none => none
    | some n => if 48 ≤ c.toNat ∧ c.toNat ≤ 57 then some (10 * n + (c.toNat - 48)) else none)
    (some 0)

/-- One field of a dotted-decimal address: decimal, at most 255, no leading
zero in front of another digit. -/
def parseOctet (cs : List Char) : Option Nat :=
  match parseDec cs with
  | none => none
  | some n => if n ≤ 255 ∧ ¬ (1 < cs.length ∧ cs.head? = some '0') then some n else none

/-- Split at every `.` (the pieces may be empty). -/
def splitDot : List Char → List (List Char)
  | [] => [[]]
  | c :: cs =>
    match splitDot cs with
    | [] => [[]]
    | h :: t => if c = '.' then [] :: h :: t else (c :: h) :: t

/-- The number of a dotted-decimal IPv4 address (`net.ParseIP` on four
decimal fields). -/
def parseIPv4 (cs : List Char) : Option Nat :=
  match (splitDot cs).map parseOctet with
  | [some a, some b, some c, some d] => some (a * 2 ^ 24 + b * 2 ^ 16 + c * 2 ^ 8 + d)
  | _ => none

/-- An IPv4 network in CIDR form: the address as written and the number of
leading one bits of the mask. -/
structure CIDR where
  IP : Nat
  Ones : Nat
  deriving DecidableEq, Repr

/-- The IPv4 case of `net.ParseCIDR`: `a.b.c.d/n` with `n ≤ 32`, split at the
first `/`. -/
def parseCIDR4 (s : String) : Option CIDR :=
  let addr := s.data.takeWhile (fun c => c ≠ '/')
  match s.data.dropWhile (fun c => c ≠ '/') with
  | [] => none
  | _ :: mask =>
    match parseIPv4 addr, parseDec mask with
    | some ip, some n => if n ≤ 32 then some ⟨ip, n⟩ else none
    | _, _ => none

/-- The method `net.IPNet.Contains` for a 32-bit address: the bits under the
mask agree with those of the network. -/
def CIDR.Contains (n : CIDR) (ip : Nat) : Bool :=
  ip >>> (32 - n.Ones) = n.IP >>> (32 - n.Ones)

/-! ## The address partitioner (`ipam.go`, exercised by `ipam_test.go`) -/

/-- Modelled from the spec: the type `IPAMConfig`, whose declaration is absent
from the sources; the fields are those of the data model, as `ipam_test.go`
sets them. -/
structure IPAMConfig where
  MaxNodesInRack : Nat
  NodeIPv4Pool : String
  NodeRangeSize : Nat
  NodeRangeMask : Nat
  NodeIndexOffset : Nat
  NodeIPPerNode : Nat
  BMCIPv4Pool : String
  BMCRangeSize : Nat
  BMCRangeMask : Nat
  deriving DecidableEq, Repr

/-- Modelled from the spec: the BMC part of a machine specification, whose
declaration is absent from the sources. -/
structure MachineBMC where
  IPv4 : String
  deriving DecidableEq, Repr

/-- Modelled from the spec: the type `MachineSpec`, whose declaration is absent
from the sources; the fields are those `ipam_test.go` uses. -/
structure MachineSpec where
  Serial : String
  Rack : Nat
  IndexInRack : Nat
  IPv4 : List String
  BMC : MachineBMC
  deriving DecidableEq, Repr

/-- Modelled from the spec: the type `Machine`, whose declaration is absent
from the sources. -/
structure Machine where
  Spec : MachineSpec
  deriving DecidableEq, Repr

/-- Modelled from the spec: the constructor `NewMachine`, absent from the
sources, on the three fields the tests give; no address is set yet. -/
def NewMachine (serial : String) (rack indexInRack : Nat) : Machine :=
  ⟨⟨serial, rack, indexInRack, [], ⟨""⟩⟩⟩

/-- Modelled from the spec: the loop of `nextPowerOfTwo`, doubling `p` until
it reaches `n`. -/
def nextPowerOfTwoLoop : Nat → Nat → Nat → Nat
  | 0, p, _ => p
  | fuel + 1, p, n => if n ≤ p then p else nextPowerOfTwoLoop fuel (2 * p) n

/-- Modelled from the spec: the stride of BMC addresses, which is absent from
the sources; "`MaxNodesInRack` rounded up to the next power of two", the least
power of two that is at least `n`. -/
def nextPowerOfTwo (n : Nat) : Nat := nextPowerOfTwoLoop n 1 n

/-- Modelled from the spec: the loop of `GenerateIP` that fills the node
addresses; `acc` holds the addresses of the blocks before `k`, `left` blocks
remain. -/
def nodeAddresses (base stride blockSize rack index : Nat) : Nat → Nat → List String → List String
  | 0, _, acc => acc
  | left + 1, k, acc =>
    nodeAddresses base stride blockSize rack index left (k + 1)
      (acc ++ [ipString (base + (stride * rack + k) * blockSize + index)])

/-- Modelled from the spec: the method `IPAMConfig.GenerateIP`, whose source
`ipam.go` is absent (only its test is present). The node pool is cut into
blocks of `2^(32 - NodeRangeMask)` addresses, a machine gets `NodeIPPerNode`
consecutive blocks starting at block `NodeIPPerNode * Rack` (the stride the
spec observes), and its address in each block is at offset `IndexInRack`; the
BMC address is at
`nextPowerOfTwo MaxNodesInRack * Rack + IndexInRack` from the BMC pool base.
The base of a pool is the address written in its CIDR, as the expected
addresses of `ipam_test.go` require (`10.72.17.0/20` gives `10.72.17.35`).
Nothing is generated (`none`) when a pool does not parse. -/
def IPAMConfig.GenerateIP (c : IPAMConfig) (mc : Machine) : Option Machine :=
  match parseCIDR4 c.NodeIPv4Pool, parseCIDR4 c.BMCIPv4Pool with
  | some node, some bmc =>
    let blockSize := 2 ^ (32 - c.NodeRangeMask)
    let ips := nodeAddresses node.IP c.NodeIPPerNode blockSize mc.Spec.Rack mc.Spec.IndexInRack
      c.NodeIPPerNode 0 []
    let bmcIP := ipString (bmc.IP + nextPowerOfTwo c.MaxNodesInRack * mc.Spec.Rack + mc.Spec.IndexInRack)
    some ⟨{ mc.Spec with IPv4 := ips, BMC := ⟨bmcIP⟩ }⟩
  | _, _ => none

/-- Modelled from the spec: the type `LeaseRange`, whose declaration is absent
from the sources; `Count` is a natural number. -/
structure LeaseRange where
  BeginAddress : Nat
  Count : Nat
  deriving DecidableEq, Repr

/-- Modelled from the spec: the method `LeaseRange.IP`, absent from the
sources; the `i`-th address of the range, in 32-bit arithmetic. -/
def LeaseRange.IP (r : LeaseRange) (i : Nat) : Nat := (r.BeginAddress + i) % 2 ^ 32

/-- Modelled from the spec: the method `LeaseRange.Key`, absent from the
sources; the string form of the begin address. -/
def LeaseRange.Key (r : LeaseRange) : String := ipString r.BeginAddress

/-- Modelled from the spec: the method `IPAMConfig.LeaseRange`, whose source
`ipam.go` is absent (only its test is present). Absent (`none`) when `ip` is
not contained in `NodeIPv4Pool`; otherwise the upper half, less its last
address, of the block of `2^(32 - NodeRangeMask)` addresses around `ip`.
Subtraction is that of the natural numbers: a block of one address has a
range of no address. -/
def IPAMConfig.LeaseRange (c : IPAMConfig) (ip : Nat) : Option LeaseRange :=
  match parseCIDR4 c.NodeIPv4Pool with
  | none => none
  | some pool =>
    if pool.Contains ip then
      let bits := 32 - c.NodeRangeMask
      let blockSize := 2 ^ bits
      let blockStart := (ip >>> bits) <<< bits
      some ⟨blockStart + blockSize / 2, blockSize / 2 - 1⟩
    else none

/-- The reference configuration `testIPAMConfig` of `ipam_test.go`. -/
def testIPAMConfig : IPAMConfig :=
  { MaxNodesInRack := 28
    NodeIPv4Pool := "10.69.0.0/20"
    NodeRangeSize := 6
    NodeRangeMask := 26
    NodeIndexOffset := 3
    NodeIPPerNode := 3
    BMCIPv4Pool := "10.72.17.0/20"
    BMCRangeSize := 5
    BMCRangeMask := 20 }

/-- The store after `POST /crypts/X` of `/dev/sda` and of `/dev/sdb` under
the key prefix `pfx`, starting from the empty store. -/
def twoDisks (pfx : String) : Store :=
  (handleCryptsPost PostRun.quiet ⟨pfx⟩ "X" (.ok ⟨"/dev/sdb", "k2"⟩)
    (handleCryptsPost PostRun.quiet ⟨pfx⟩ "X" (.ok ⟨"/dev/sda", "k1"⟩) Store.empty).store).store

/-! ## Properties of the address partitioner -/

theorem nodeAddresses_eq (base stride blockSize rack index : Nat) (left k : Nat) (acc : List String) :
    nodeAddresses base stride blockSize rack index left k acc =
      acc ++ (List.range left).map
        (fun j => ipString (base + (stride * rack + (k + j)) * blockSize + index)) := by
  induction left generalizing k acc with
  | zero => simp [nodeAddresses]
  | succ n ih =>
    rw [nodeAddresses, ih, List.range_succ_eq_map, List.map_cons, List.map_map,
      List.append_assoc, List.singleton_append, Nat.add_zero]
    congr 2
    apply List.map_congr_left
    intro j _
    simp only [Function.comp]
    congr 4
    omega

theorem nextPowerOfTwoLoop_spec (fuel j n : Nat) (hlow : ∀ i, i < j → 2 ^ i < n)
    (hfuel : n ≤ 2 ^ (j + fuel)) :
    ∃ x, nextPowerOfTwoLoop fuel (2 ^ j) n = 2 ^ x ∧ n ≤ 2 ^ x ∧ ∀ y, n ≤ 2 ^ y → x ≤ y := by
  induction fuel generalizing j with
  | zero =>
    refine ⟨j, rfl, by simpa using hfuel, ?_⟩
    intro y hy
    by_contra hlt
    exact absurd (hlow y (by omega)) (by omega)
  | succ f ih =>
    rw [nextPowerOfTwoLoop]
    split_ifs with hle
    · refine ⟨j, rfl, hle, ?_⟩
      intro y hy
      by_contra hlt
      exact absurd (hlow y (by omega)) (by omega)
    · rw [← pow_succ']
      apply ih (j + 1)
      · intro i hi
        rcases Nat.lt_succ_iff_lt_or_eq.1 hi with h | h
        · exact hlow i h
        · subst h; omega
      · rw [show j + 1 + f = j + (f + 1) by omega]; exact hfuel

theorem nextPowerOfTwo_spec (n : Nat) :
    ∃ x, nextPowerOfTwo n = 2 ^ x ∧ n ≤ 2 ^ x ∧ ∀ y, n ≤ 2 ^ y → x ≤ y := by
  have h := nextPowerOfTwoLoop_spec n 0 n (by intro i hi; omega)
    (by simpa using (Nat.lt_two_pow n).le)
  simpa [nextPowerOfTwo] using h

/-- C1: with both pools parsed, `GenerateIP` sets the IPv4 list of the machine
to `NodeIPPerNode` addresses, the `k`-th being
`pool_base + (NodeIPPerNode * Rack + k) * 2^(32 - NodeRangeMask) + IndexInRack`,
and the BMC address to
`bmc_pool_base + nextPowerOfTwo MaxNodesInRack * Rack + IndexInRack`, where
`nextPowerOfTwo` is the least power of two that is at least its argument;
under the reference configuration the machines of `ipam_test.go` get the
addresses the test expects. -/
theorem generateIP_addresses (c : IPAMConfig) (mc : Machine) (node bmc : CIDR)
    (hnode : parseCIDR4 c.NodeIPv4Pool = some node)
    (hbmc : parseCIDR4 c.BMCIPv4Pool = some bmc) :
    (∃ out, c.GenerateIP mc = some out ∧
      out.Spec.IPv4.length = c.NodeIPPerNode ∧
      (∀ k, k < c.NodeIPPerNode →
        out.Spec.IPv4[k]? = some (ipString (node.IP +
          (c.NodeIPPerNode * mc.Spec.Rack + k) * 2 ^ (32 - c.NodeRangeMask) +
          mc.Spec.IndexInRack))) ∧
      out.Spec.BMC.IPv4 = ipString (bmc.IP +
        nextPowerOfTwo c.MaxNodesInRack * mc.Spec.Rack + mc.Spec.IndexInRack) ∧
      out.Spec.Serial = mc.Spec.Serial ∧ out.Spec.Rack = mc.Spec.Rack ∧
      out.Spec.IndexInRack = mc.Spec.IndexInRack) ∧
    (∃ x, nextPowerOfTwo c.MaxNodesInRack = 2 ^ x ∧ c.MaxNodesInRack ≤ 2 ^ x ∧
      ∀ y, c.MaxNodesInRack ≤ 2 ^ y → x ≤ y) ∧
    (testIPAMConfig.GenerateIP (NewMachine "1234" 1 3)).map
        (fun m => (m.Spec.IPv4, m.Spec.BMC.IPv4)) =
      some (["10.69.0.195", "10.69.1.3", "10.69.1.67"], "10.72.17.35") ∧
    (testIPAMConfig.GenerateIP (NewMachine "5678" 0 5)).map
        (fun m => (m.Spec.IPv4, m.Spec.BMC.IPv4)) =
      some (["10.69.0.5", "10.69.0.69", "10.69.0.133"], "10.72.17.5") := by
  refine ⟨?_, nextPowerOfTwo_spec _, by decide, by decide⟩
  have hgen : c.GenerateIP mc = some ⟨{ mc.Spec with
      IPv4 := nodeAddresses node.IP c.NodeIPPerNode (2 ^ (32 - c.NodeRangeMask)) mc.Spec.Rack
        mc.Spec.IndexInRack c.NodeIPPerNode 0 []
      BMC := ⟨ipString (bmc.IP + nextPowerOfTwo c.MaxNodesInRack * mc.Spec.Rack +
        mc.Spec.IndexInRack)⟩ }⟩ := by
    simp only [IPAMConfig.GenerateIP, hnode, hbmc]
  refine ⟨_, hgen, ?_, ?_, rfl, rfl, rfl, rfl⟩
  · simp [nodeAddresses_eq]
  · intro k hk
    simp [nodeAddresses_eq, hk]

/-- The machine of the first case of `testGenerateIP`, through the theorem. -/
theorem generateIP_addresses_witness :
    parseCIDR4 testIPAMConfig.NodeIPv4Pool = some ⟨172294144, 20⟩ ∧
    parseCIDR4 testIPAMConfig.BMCIPv4Pool = some ⟨172495104, 20⟩ ∧
    ∃ out, testIPAMConfig.GenerateIP (NewMachine "1234" 1 3) = some out ∧
      out.Spec.IPv4.length = 3 ∧ out.Spec.IPv4[2]? = some "10.69.1.67" ∧
      out.Spec.BMC.IPv4 = "10.72.17.35" :=
  ⟨by decide, by decide,
    (generateIP_addresses testIPAMConfig (NewMachine "1234" 1 3) ⟨172294144, 20⟩
      ⟨172495104, 20⟩ (by decide) (by decide)).1.elim
      (fun out h => ⟨out, h.1, h.2.1, h.2.2.1 2 (by decide), h.2.2.2.1⟩)⟩

theorem clearLowBits_eq (ip bits : Nat) : (ip >>> bits) <<< bits = ip - ip % 2 ^ bits := by
  rw [Nat.shiftRight_eq_div_pow, Nat.shiftLeft_eq]
  have h := Nat.div_add_mod ip (2 ^ bits)
  rw [Nat.mul_comm] at h
  omega

theorem block_end_le (ip bits : Nat) (hip : ip < 2 ^ 32) (hbits : bits ≤ 32) :
    ip - ip % 2 ^ bits + 2 ^ bits ≤ 2 ^ 32 := by
  have hpos : 0 < 2 ^ bits := Nat.two_pow_pos bits
  have hsplit : (2 : Nat) ^ 32 = 2 ^ bits * 2 ^ (32 - bits) := by
    rw [← pow_add]; congr 1; omega
  have hdiv : ip / 2 ^ bits < 2 ^ (32 - bits) := by
    rw [Nat.div_lt_iff_lt_mul hpos, Nat.mul_comm, ← hsplit]; exact hip
  have hstart : ip - ip % 2 ^ bits = 2 ^ bits * (ip / 2 ^ bits) := by
    have h := Nat.div_add_mod ip (2 ^ bits)
    omega
  rw [hstart, hsplit]
  calc 2 ^ bits * (ip / 2 ^ bits) + 2 ^ bits = 2 ^ bits * (ip / 2 ^ bits + 1) := by ring
    _ ≤ 2 ^ bits * 2 ^ (32 - bits) := Nat.mul_le_mul_left _ hdiv

/-- C2: with the node pool parsed and `ip` a 32-bit address, `LeaseRange ip`
is absent when the pool does not contain `ip`; otherwise it is the range with
`BeginAddress = blockStart + blockSize/2` and `Count = blockSize/2 - 1`, for
`blockSize = 2^(32 - NodeRangeMask)` and `blockStart` the address `ip` with
its low `32 - NodeRangeMask` bits cleared, whose `IP i` is `BeginAddress + i`
for every `i < Count` and whose `Key` is the dotted-decimal text of
`BeginAddress`; under the reference configuration `10.68.10.20` has no range
and `10.69.10.20` has the range the test expects. -/
theorem leaseRange_upper_half (c : IPAMConfig) (pool : CIDR) (ip : Nat)
    (hpool : parseCIDR4 c.NodeIPv4Pool = some pool) (hip : ip < 2 ^ 32) :
    (pool.Contains ip = false → c.LeaseRange ip = none) ∧
    (pool.Contains ip = true → ∃ r, c.LeaseRange ip = some r ∧
      r.BeginAddress = (ip - ip % 2 ^ (32 - c.NodeRangeMask)) + 2 ^ (32 - c.NodeRangeMask) / 2 ∧
      r.Count = 2 ^ (32 - c.NodeRangeMask) / 2 - 1 ∧
      (∀ i, i < r.Count → r.IP i = r.BeginAddress + i) ∧
      r.Key = ipString r.BeginAddress) ∧
    (parseIPv4 "10.68.10.20".data).bind testIPAMConfig.LeaseRange = none ∧
    ((parseIPv4 "10.69.10.20".data).bind testIPAMConfig.LeaseRange).map
        (fun r => (ipString r.BeginAddress, r.Count, ipString (r.IP 3), r.Key)) =
      some ("10.69.10.32", 31, "10.69.10.35", "10.69.10.32") := by
  refine ⟨?_, ?_, by decide, by decide⟩
  · intro hout
    simp [IPAMConfig.LeaseRange, hpool, hout]
  · intro hin
    refine ⟨⟨(ip >>> (32 - c.NodeRangeMask)) <<< (32 - c.NodeRangeMask) +
        2 ^ (32 - c.NodeRangeMask) / 2, 2 ^ (32 - c.NodeRangeMask) / 2 - 1⟩, ?_, ?_, rfl, ?_, rfl⟩
    · simp [IPAMConfig.LeaseRange, hpool, hin]
    · simp only [clearLowBits_eq]
    · intro i hi
      simp only [LeaseRange.IP, clearLowBits_eq] at hi ⊢
      apply Nat.mod_eq_of_lt
      have hend := block_end_le ip (32 - c.NodeRangeMask) hip (Nat.sub_le _ _)
      have hhalf : 2 ^ (32 - c.NodeRangeMask) / 2 * 2 ≤ 2 ^ (32 - c.NodeRangeMask) :=
        Nat.div_mul_le_self _ _
      omega

/-- The address `10.69.10.20` of `testLeaseRange`, through the theorem. -/
theorem leaseRange_upper_half_witness :
    parseCIDR4 testIPAMConfig.NodeIPv4Pool = some ⟨172294144, 20⟩ ∧ 172296724 < 2 ^ 32 ∧
    ∃ r, testIPAMConfig.LeaseRange 172296724 = some r ∧ r.BeginAddress = 172296736 ∧
      r.Count = 31 ∧ (∀ i, i < r.Count → r.IP i = r.BeginAddress + i) :=
  ⟨by decide, by decide,
    ((leaseRange_upper_half testIPAMConfig ⟨172294144, 20⟩ 172296724 (by decide)
      (by decide)).2.1 (by decide)).elim
      (fun r h => ⟨r, h.1, h.2.1, h.2.2.1, h.2.2.2.1⟩)⟩

/-! ## Properties of the store handlers -/

theorem Store.get_of_lookup_none {s : Store} {key : String} (h : s.kvs.lookup key = none) :
    s.get key = ⟨[], 0⟩ := by
  simp [Store.get, h]

theorem Store.get_of_lookup_some {s : Store} {key : String} {v : StoredValue}
    (h : s.kvs.lookup key = some v) :
    s.get key = ⟨[⟨key, v.Value, v.CreateRevision⟩], 1⟩ := by
  simp [Store.get, h]

theorem Store.get_count_ne_one_iff (s : Store) (key : String) :
    (s.get key).Count ≠ 1 ↔ s.kvs.lookup key = none := by
  unfold Store.get
  cases h : s.kvs.lookup key <;> simp

theorem Store.createRevision_eq_zero_iff (s : Store) (key : String) :
    s.createRevision key = 0 ↔ s.kvs.lookup key = none := by
  unfold Store.createRevision
  cases h : s.kvs.lookup key <;> simp

theorem Store.lookup_put_self (s : Store) (key val : String) :
    ∃ rev, (s.put key val).kvs.lookup key = some ⟨val, rev⟩ := by
  unfold Store.put
  cases h : s.kvs.lookup key <;> simp

theorem Store.commit_create_of_absent (s : Store) (target key : String)
    (h : s.kvs.lookup target = none) :
    s.commit [⟨target, 0⟩] [⟨target, key⟩] [] = (s.put target key, true) := by
  simp [Store.commit, Store.holds, (Store.createRevision_eq_zero_iff s target).2 h]

theorem entries_filter_key_of_lookup (m : AList (fun _ : String => StoredValue)) (key : String)
    (v : StoredValue) (h : m.lookup key = some v) :
    m.entries.filter (fun e => e.1 = key) = [⟨key, v⟩] := by
  obtain ⟨l, hl⟩ := m
  simp only [AList.lookup] at h
  induction l with
  | nil => simp at h
  | cons x xs ih =>
    obtain ⟨k, w⟩ := x
    rw [List.nodupKeys_cons] at hl
    by_cases hk : k = key
    · subst hk
      simp only [List.dlookup_cons_eq, Option.some.injEq] at h
      subst h
      have hnone : ∀ y ∈ xs, ¬ (y.1 = k) := by
        intro y hy hyk
        apply hl.1
        rw [← hyk]
        exact List.mem_keys_of_mem (s := y) hy
      have hnil : xs.filter (fun e => decide (e.1 = k)) = [] := by
        rw [List.filter_eq_nil_iff]
        intro y hy
        simpa using hnone y hy
      simp [List.filter_cons, hnil]
    · rw [List.dlookup_cons_ne _ _ (Ne.symm hk)] at h
      simp [List.filter_cons, hk, ih hl.2 h]

theorem IsNull_eq_false {str : String} (h : str ≠ "") : IsNull str = false := by
  have : str.length ≠ 0 := by
    intro h0
    apply h
    have hd : str.data = [] := List.length_eq_zero.1 h0
    exact String.ext hd
  simp [IsNull, this]

/-- A `handleCryptsPost` that answers 201 found the target absent and
committed the transaction on the store as it was left by the other clients. -/
theorem handleCryptsPost_created (run : PostRun) (e : etcdClient) (serial : String)
    (received : cryptEntity) (st : Store)
    (h : (handleCryptsPost run e serial (.ok received) st).resp =
      [.respWriter (.entity received) 201]) :
    st.kvs.lookup (pathJoin [e.Prefix, "crypts", serial, received.Path]) = none ∧
    (handleCryptsPost run e serial (.ok received) st).store =
      ((run.between st).commit [⟨pathJoin [e.Prefix, "crypts", serial, received.Path], 0⟩]
        [⟨pathJoin [e.Prefix, "crypts", serial, received.Path], received.Key⟩] []).1 := by
  unfold handleCryptsPost at h ⊢
  simp only at h ⊢
  split_ifs at h ⊢ with hp hk hc <;> try (simp at h)
  · cases hs : run.sessionErr <;> simp only [hs] at h ⊢ <;> try (simp at h)
    cases hl : run.lockErr <;> simp only [hl] at h ⊢ <;> try (simp at h)
    cases hg : run.getErr <;> simp only [hg] at h ⊢ <;> try (simp at h)
  · cases hs : run.sessionErr <;> simp only [hs] at h ⊢ <;> try (simp at h)
    cases hl : run.lockErr <;> simp only [hl] at h ⊢ <;> try (simp at h)
    cases hg : run.getErr <;> simp only [hg] at h ⊢ <;> try (simp at h)
    cases ht : run.txnErr <;> simp only [ht] at h ⊢ <;> try (simp at h)
    cases hu : run.unlockErr <;> simp only [hu] at h ⊢ <;> try (simp at h)
    cases hw : run.writerErr <;> simp only [hw] at h ⊢ <;> try (simp at h)
    exact ⟨(Store.get_count_ne_one_iff _ _).1 hc, trivial⟩

/-- C3: crypts create-once. When `handleCryptsPost` for `(serial, diskPath, k1)`
answers 201 (no other client writing in between), a following
`handleCryptsPost` for the same `(serial, diskPath)` with `k2` whose session,
lock and read succeed answers 400 "target ... exists", and the store then
holds exactly one record under the target key, with value `k1`. -/
theorem crypts_create_once (run1 run2 : PostRun) (e : etcdClient)
    (serial diskPath k1 k2 : String) (st : Store)
    (hpath : diskPath ≠ "") (hk2 : k2 ≠ "")
    (halone : run1.between st = st)
    (hsession : run2.sessionErr = none) (hlock : run2.lockErr = none)
    (hget : run2.getErr = none)
    (hfirst : (handleCryptsPost run1 e serial (.ok ⟨diskPath, k1⟩) st).resp =
      [.respWriter (.entity ⟨diskPath, k1⟩) 201]) :
    (handleCryptsPost run2 e serial (.ok ⟨diskPath, k2⟩)
        (handleCryptsPost run1 e serial (.ok ⟨diskPath, k1⟩) st).store).resp =
      [.respError ("target " ++ pathJoin [e.Prefix, "crypts", serial, diskPath] ++ " exists") 400] ∧
    ((handleCryptsPost run2 e serial (.ok ⟨diskPath, k2⟩)
        (handleCryptsPost run1 e serial (.ok ⟨diskPath, k1⟩) st).store).store.kvs.entries.filter
          (fun r => r.1 = pathJoin [e.Prefix, "crypts", serial, diskPath])).map (fun r => r.2.Value) =
      [k1] := by
  obtain ⟨habsent, hstore⟩ := handleCryptsPost_created run1 e serial ⟨diskPath, k1⟩ st hfirst
  simp only at habsent hstore
  rw [halone, Store.commit_create_of_absent _ _ _ habsent] at hstore
  obtain ⟨rev, hrev⟩ := Store.lookup_put_self st (pathJoin [e.Prefix, "crypts", serial, diskPath]) k1
  rw [hstore]
  have hcount := Store.get_of_lookup_some hrev
  have hsecond : handleCryptsPost run2 e serial (.ok ⟨diskPath, k2⟩)
      (st.put (pathJoin [e.Prefix, "crypts", serial, diskPath]) k1) =
      ⟨st.put (pathJoin [e.Prefix, "crypts", serial, diskPath]) k1,
        [.respError ("target " ++ pathJoin [e.Prefix, "crypts", serial, diskPath] ++ " exists") 400],
        [.newSession true, .lock true, .close]⟩ := by
    unfold handleCryptsPost
    simp [IsNull_eq_false hpath, IsNull_eq_false hk2, hsession, hlock, hget, hcount]
  rw [hsecond]
  refine ⟨rfl, ?_⟩
  simp only
  rw [entries_filter_key_of_lookup _ _ _ hrev]
  rfl

/-- The disk `/dev/sda` of the serial `X` created twice in the empty store. -/
theorem crypts_create_once_witness :
    (handleCryptsPost PostRun.quiet ⟨"/sabakan"⟩ "X" (.ok ⟨"/dev/sda", "k2"⟩)
        (handleCryptsPost PostRun.quiet ⟨"/sabakan"⟩ "X" (.ok ⟨"/dev/sda", "k1"⟩)
          Store.empty).store).resp =
      [.respError ("target " ++ pathJoin ["/sabakan", "crypts", "X", "/dev/sda"] ++ " exists") 400] ∧
    ((handleCryptsPost PostRun.quiet ⟨"/sabakan"⟩ "X" (.ok ⟨"/dev/sda", "k2"⟩)
        (handleCryptsPost PostRun.quiet ⟨"/sabakan"⟩ "X" (.ok ⟨"/dev/sda", "k1"⟩)
          Store.empty).store).store.kvs.entries.filter
          (fun r => r.1 = pathJoin ["/sabakan", "crypts", "X", "/dev/sda"])).map
        (fun r => r.2.Value) = ["k1"] :=
  crypts_create_once PostRun.quiet PostRun.quiet ⟨"/sabakan"⟩ "X" "/dev/sda" "k1" "k2"
    Store.empty (by decide) (by decide) rfl rfl rfl rfl (by decide)

/-- C4: crypts create/get round trip. A `handleCryptsGet` whose read succeeds
answers 404 while the store has no record under the target key of
`(serial, diskPath)`; and once `handleCryptsPost` for `(serial, diskPath, key)`
has answered 201 (no other client writing in between), it answers 200 with
the body `{path: diskPath, key: key}`. -/
theorem crypts_create_get_round_trip (run : PostRun) (grun : GetRun) (e : etcdClient)
    (serial diskPath key : String) (st : Store)
    (halone : run.between st = st)
    (hget : grun.getErr = none) (hwriter : grun.writerErr = none) :
    (st.kvs.lookup (pathJoin [e.Prefix, "crypts", serial, diskPath]) = none →
      (handleCryptsGet grun e serial diskPath st).resp =
        [.respError ("target " ++ pathJoin [e.Prefix, "crypts", serial, diskPath] ++ " not found")
          404]) ∧
    ((handleCryptsPost run e serial (.ok ⟨diskPath, key⟩) st).resp =
        [.respWriter (.entity ⟨diskPath, key⟩) 201] →
      (handleCryptsGet grun e serial diskPath
          (handleCryptsPost run e serial (.ok ⟨diskPath, key⟩) st).store).resp =
        [.respWriter (.entity ⟨diskPath, key⟩) 200]) := by
  constructor
  · intro habsent
    unfold handleCryptsGet
    simp [hget, Store.get_of_lookup_none habsent]
  · intro hfirst
    obtain ⟨habsent, hstore⟩ := handleCryptsPost_created run e serial ⟨diskPath, key⟩ st hfirst
    simp only at habsent hstore
    rw [halone, Store.commit_create_of_absent _ _ _ habsent] at hstore
    obtain ⟨rev, hrev⟩ := Store.lookup_put_self st (pathJoin [e.Prefix, "crypts", serial, diskPath]) key
    rw [hstore]
    unfold handleCryptsGet
    simp [hget, hwriter, Store.get_of_lookup_some hrev]

/-- The disk `sda` of the serial `X`, read before and after its creation. -/
theorem crypts_create_get_round_trip_witness :
    (handleCryptsGet GetRun.quiet ⟨"/sabakan"⟩ "X" "sda" Store.empty).resp =
      [.respError "target /sabakan/crypts/X/sda not found" 404] ∧
    (handleCryptsGet GetRun.quiet ⟨"/sabakan"⟩ "X" "sda"
        (handleCryptsPost PostRun.quiet ⟨"/sabakan"⟩ "X" (.ok ⟨"sda", "k1"⟩) Store.empty).store).resp =
      [.respWriter (.entity ⟨"sda", "k1"⟩) 200] :=
  have h := crypts_create_get_round_trip PostRun.quiet GetRun.quiet ⟨"/sabakan"⟩ "X" "sda" "k1"
    Store.empty rfl rfl rfl
  ⟨h.1 (by decide), h.2 (by decide)⟩

theorem Store.getPrefix_count (s : Store) (pfx : String) :
    (s.getPrefix pfx).Count = (s.scan pfx).length := by
  simp [Store.getPrefix, List.length_insertionSort]

theorem Store.scan_ne_nil_of_key (s : Store) (pfx key : String) (hkey : key ∈ s.kvs.keys)
    (hpfx : pfx.data <+: key.data) : s.scan pfx ≠ [] := by
  rw [AList.keys, List.keys, List.mem_map] at hkey
  obtain ⟨r, hr, rfl⟩ := hkey
  intro hnil
  have hmem : r ∈ s.scan pfx := by
    simp only [Store.scan, List.mem_filter]
    exact ⟨hr, by simpa [List.isPrefixOf_iff_prefix] using hpfx⟩
  rw [hnil] at hmem
  simp at hmem

/-- C6: config freeze. In every store that holds a key under the machines
prefix `path.Join(Prefix, "/machines")`, and for every decoded request body
(a decoding error, an invalid or a valid config), a `handlePostConfig` whose
read succeeds answers 403 "machines already exist" and leaves the store
unchanged, the value under `path.Join(Prefix, "/config")` included. -/
theorem config_freeze {α : Type} (parseCIDR : String → Option α) (run : ConfigRun)
    (e : EtcdClient) (body : Except String Config) (st : Store) (key : String)
    (hkey : key ∈ st.kvs.keys)
    (hmachines : (pathJoin [e.Prefix, EtcdKeyMachines]).data <+: key.data)
    (hget : run.getErr = none) :
    (handlePostConfig parseCIDR run e body st).resp = [.renderError "machines already exist" 403] ∧
    (handlePostConfig parseCIDR run e body st).store = st ∧
    (handlePostConfig parseCIDR run e body st).store.get (pathJoin [e.Prefix, EtcdKeyConfig]) =
      st.get (pathJoin [e.Prefix, EtcdKeyConfig]) := by
  have hcount : (st.getPrefix (pathJoin [e.Prefix, EtcdKeyMachines])).Count ≠ 0 := by
    rw [Store.getPrefix_count]
    exact fun h0 => Store.scan_ne_nil_of_key st _ key hkey hmachines (List.length_eq_zero.1 h0)
  unfold handlePostConfig
  simp [hget, hcount, ErrorMachinesExist]

/-- A valid config posted to a store that holds the machine `1234`. -/
theorem config_freeze_witness :
    (handlePostConfig parseCIDR4 ⟨none, fun _ => .ok "", none⟩ ⟨"/sabakan"⟩
        (.ok ⟨"10.0.0.0/8", 1, "10.1.0.0/16", 1, 1, 1⟩)
        (Store.empty.put "/sabakan/machines/1234" "m")).resp =
      [.renderError "machines already exist" 403] ∧
    (handlePostConfig parseCIDR4 ⟨none, fun _ => .ok "", none⟩ ⟨"/sabakan"⟩
        (.ok ⟨"10.0.0.0/8", 1, "10.1.0.0/16", 1, 1, 1⟩)
        (Store.empty.put "/sabakan/machines/1234" "m")).store =
      Store.empty.put "/sabakan/machines/1234" "m" ∧
    (handlePostConfig parseCIDR4 ⟨none, fun _ => .ok "", none⟩ ⟨"/sabakan"⟩
        (.ok ⟨"10.0.0.0/8", 1, "10.1.0.0/16", 1, 1, 1⟩)
        (Store.empty.put "/sabakan/machines/1234" "m")).store.get
          (pathJoin ["/sabakan", EtcdKeyConfig]) =
      (Store.empty.put "/sabakan/machines/1234" "m").get (pathJoin ["/sabakan", EtcdKeyConfig]) :=
  config_freeze parseCIDR4 ⟨none, fun _ => .ok "", none⟩ ⟨"/sabakan"⟩
    (.ok ⟨"10.0.0.0/8", 1, "10.1.0.0/16", 1, 1, 1⟩)
    (Store.empty.put "/sabakan/machines/1234" "m") "/sabakan/machines/1234"
    (by decide) (by decide) rfl

/-- C9, as the code has it: once the mutex is acquired, `handleCryptsPost`
ends every exit path with the deferred close of the session, after which the
mutex is not held; `Unlock` itself is called exactly on the paths where the
read succeeded, the target was absent and the transaction returned no error,
and on no path that fails before that. -/
theorem post_lock_released_by_close (run : PostRun) (e : etcdClient) (serial : String)
    (received : cryptEntity) (st : Store)
    (hacquired : SyncCall.lock true ∈ (handleCryptsPost run e serial (.ok received) st).sync) :
    (handleCryptsPost run e serial (.ok received) st).sync.getLast? = some .close ∧
    lockHeld (handleCryptsPost run e serial (.ok received) st).sync = false ∧
    ((SyncCall.unlock true ∈ (handleCryptsPost run e serial (.ok received) st).sync ∨
        SyncCall.unlock false ∈ (handleCryptsPost run e serial (.ok received) st).sync) ↔
      (run.getErr = none ∧
        (st.get (pathJoin [e.Prefix, "crypts", serial, received.Path])).Count ≠ 1 ∧
        run.txnErr = none)) := by
  unfold handleCryptsPost at hacquired ⊢
  simp only at hacquired ⊢
  split_ifs at hacquired ⊢ with hp hk hc <;> try (simp at hacquired)
  all_goals
    cases hs : run.sessionErr <;> simp only [hs] at hacquired ⊢ <;> try (simp at hacquired)
    cases hl : run.lockErr <;> simp only [hl] at hacquired ⊢ <;> try (simp at hacquired)
    cases hg : run.getErr <;> simp only [hg] at hacquired ⊢ <;>
      try (simp [lockHeld, lockStep, hc])
  cases ht : run.txnErr <;> simp only [ht] <;> try (simp [lockHeld, lockStep])
  cases hu : run.unlockErr <;> simp only [hu] <;> try (simp [lockHeld, lockStep])
  cases hw : run.writerErr <;> simp [lockHeld, lockStep]

/-- The session calls of a creation in which no call fails. -/
theorem post_lock_released_by_close_witness :
    (handleCryptsPost PostRun.quiet ⟨"/sabakan"⟩ "X" (.ok ⟨"/dev/sda", "k1"⟩)
        Store.empty).sync.getLast? = some .close ∧
    lockHeld (handleCryptsPost PostRun.quiet ⟨"/sabakan"⟩ "X" (.ok ⟨"/dev/sda", "k1"⟩)
        Store.empty).sync = false ∧
    ((SyncCall.unlock true ∈ (handleCryptsPost PostRun.quiet ⟨"/sabakan"⟩ "X"
          (.ok ⟨"/dev/sda", "k1"⟩) Store.empty).sync ∨
        SyncCall.unlock false ∈ (handleCryptsPost PostRun.quiet ⟨"/sabakan"⟩ "X"
          (.ok ⟨"/dev/sda", "k1"⟩) Store.empty).sync) ↔
      (PostRun.quiet.getErr = none ∧
        (Store.empty.get (pathJoin ["/sabakan", "crypts", "X", "/dev/sda"])).Count ≠ 1 ∧
        PostRun.quiet.txnErr = none)) :=
  post_lock_released_by_close PostRun.quiet ⟨"/sabakan"⟩ "X" ⟨"/dev/sda", "k1"⟩ Store.empty
    (by decide)

/-- C9 as stated fails: on the already-exists path the mutex was acquired
and the handler answers 400 without calling `Unlock`; only the deferred close
of the session follows the lock. -/
theorem post_exists_path_skips_unlock :
    (handleCryptsPost PostRun.quiet ⟨"/sabakan"⟩ "X" (.ok ⟨"/dev/sda", "k2"⟩)
        (Store.empty.put "/sabakan/crypts/X/dev/sda" "k1")).resp =
      [.respError "target /sabakan/crypts/X/dev/sda exists" 400] ∧
    (handleCryptsPost PostRun.quiet ⟨"/sabakan"⟩ "X" (.ok ⟨"/dev/sda", "k2"⟩)
        (Store.empty.put "/sabakan/crypts/X/dev/sda" "k1")).sync =
      [.newSession true, .lock true, .close] := by
  decide

/-- C5 at the key prefix `/sabakan`: both creations answer 201 and are stored
under `/sabakan/crypts/X/...`, but `handleCryptsDelete` scans `/crypts/X`,
answers 404 and removes nothing. At the key prefix `/`, where the scan does
find the records, the paths of the response are the etcd keys. -/
theorem delete_ignores_key_prefix :
    (handleCryptsPost PostRun.quiet ⟨"/sabakan"⟩ "X" (.ok ⟨"/dev/sda", "k1"⟩) Store.empty).resp =
      [.respWriter (.entity ⟨"/dev/sda", "k1"⟩) 201] ∧
    (handleCryptsPost PostRun.quiet ⟨"/sabakan"⟩ "X" (.ok ⟨"/dev/sdb", "k2"⟩)
        (handleCryptsPost PostRun.quiet ⟨"/sabakan"⟩ "X" (.ok ⟨"/dev/sda", "k1"⟩)
          Store.empty).store).resp =
      [.respWriter (.entity ⟨"/dev/sdb", "k2"⟩) 201] ∧
    (handleCryptsDelete DeleteRun.quiet ⟨"/sabakan"⟩ "X" (twoDisks "/sabakan")).resp =
      [.respError "target not found" 404] ∧
    (handleCryptsDelete DeleteRun.quiet ⟨"/sabakan"⟩ "X" (twoDisks "/sabakan")).store.kvs.keys =
      ["/sabakan/crypts/X/dev/sdb", "/sabakan/crypts/X/dev/sda"] ∧
    (handleCryptsDelete DeleteRun.quiet ⟨"/"⟩ "X" (twoDisks "/")).resp =
      [.respWriter (.deleted [⟨"/crypts/X/dev/sda"⟩, ⟨"/crypts/X/dev/sdb"⟩]) 200] := by
  decide

/-- C8 at a run where another client writes the target between the read and
the commit: the guard of the transaction fails and nothing is put, yet the
handler answers 201 with the key of the request, while the store keeps the
key of the other client. -/
theorem post_answers_created_when_guard_fails :
    ((Store.empty.put "/sabakan/crypts/X/dev/sda" "theirs").commit
        [⟨"/sabakan/crypts/X/dev/sda", 0⟩] [⟨"/sabakan/crypts/X/dev/sda", "mine"⟩] []).2 = false ∧
    (handleCryptsPost
        ⟨none, none, none, fun s => s.put "/sabakan/crypts/X/dev/sda" "theirs", none, none, none⟩
        ⟨"/sabakan"⟩ "X" (.ok ⟨"/dev/sda", "mine"⟩) Store.empty).resp =
      [.respWriter (.entity ⟨"/dev/sda", "mine"⟩) 201] ∧
    ((handleCryptsPost
        ⟨none, none, none, fun s => s.put "/sabakan/crypts/X/dev/sda" "theirs", none, none, none⟩
        ⟨"/sabakan"⟩ "X" (.ok ⟨"/dev/sda", "mine"⟩) Store.empty).store.get
          "/sabakan/crypts/X/dev/sda").Kvs.map (fun kv => kv.Value) = ["theirs"] := by
  decide

/-- C10 at the serials `1` and `12` under the key prefix `/`: after one disk
has been created for each, `handleCryptsDelete` for `1` lists the key of `12`
in its response and removes the record of `12` from the store. -/
theorem delete_reaches_longer_serial :
    (handleCryptsPost PostRun.quiet ⟨"/"⟩ "12" (.ok ⟨"/dev/sda", "k12"⟩)
        (handleCryptsPost PostRun.quiet ⟨"/"⟩ "1" (.ok ⟨"/dev/sda", "k1"⟩) Store.empty).store).resp =
      [.respWriter (.entity ⟨"/dev/sda", "k12"⟩) 201] ∧
    ((handleCryptsPost PostRun.quiet ⟨"/"⟩ "12" (.ok ⟨"/dev/sda", "k12"⟩)
        (handleCryptsPost PostRun.quiet ⟨"/"⟩ "1" (.ok ⟨"/dev/sda", "k1"⟩)
          Store.empty).store).store.get "/crypts/12/dev/sda").Count = 1 ∧
    (handleCryptsDelete DeleteRun.quiet ⟨"/"⟩ "1"
        (handleCryptsPost PostRun.quiet ⟨"/"⟩ "12" (.ok ⟨"/dev/sda", "k12"⟩)
          (handleCryptsPost PostRun.quiet ⟨"/"⟩ "1" (.ok ⟨"/dev/sda", "k1"⟩)
            Store.empty).store).store).resp =
      [.respWriter (.deleted [⟨"/crypts/1/dev/sda"⟩, ⟨"/crypts/12/dev/sda"⟩]) 200] ∧
    ((handleCryptsDelete DeleteRun.quiet ⟨"/"⟩ "1"
        (handleCryptsPost PostRun.quiet ⟨"/"⟩ "12" (.ok ⟨"/dev/sda", "k12"⟩)
          (handleCryptsPost PostRun.quiet ⟨"/"⟩ "1" (.ok ⟨"/dev/sda", "k1"⟩)
            Store.empty).store).store).store.get "/crypts/12/dev/sda").Count = 0 := by
  decide

/-- C7: `validate` returns nil exactly when both CIDR fields parse and the
four numeric fields are nonzero; otherwise it returns the error of the first
failing check, in the order node-ipv4-offset, node-rack-shift,
bmc-ipv4-offset, bmc-rack-shift, node-ip-per-node, bmc-ip-per-node, an
"invalid value" error for a CIDR field and a "value not found" error for a
numeric field. -/
theorem validate_first_failing_check {α : Type} (parseCIDR : String → Option α) (c : Config) :
    (c.validate parseCIDR = none ↔
      ((parseCIDR c.NodeIPv4Offset).isSome ∧ (parseCIDR c.BMCIPv4Offset).isSome ∧
        c.NodeRackShift ≠ 0 ∧ c.BMCRackShift ≠ 0 ∧ c.NodeIPPerNode ≠ 0 ∧ c.BMCIPPerNode ≠ 0)) ∧
    ((parseCIDR c.NodeIPv4Offset).isNone →
      c.validate parseCIDR = some ("node-ipv4-offset: " ++ ErrorInvalidValue)) ∧
    ((parseCIDR c.NodeIPv4Offset).isSome → c.NodeRackShift = 0 →
      c.validate parseCIDR = some ("node-rack-shift: " ++ ErrorValueNotFound)) ∧
    ((parseCIDR c.NodeIPv4Offset).isSome → c.NodeRackShift ≠ 0 →
      (parseCIDR c.BMCIPv4Offset).isNone →
      c.validate parseCIDR = some ("bmc-ipv4-offset: " ++ ErrorInvalidValue)) ∧
    ((parseCIDR c.NodeIPv4Offset).isSome → c.NodeRackShift ≠ 0 →
      (parseCIDR c.BMCIPv4Offset).isSome → c.BMCRackShift = 0 →
      c.validate parseCIDR = some ("bmc-rack-shift: " ++ ErrorValueNotFound)) ∧
    ((parseCIDR c.NodeIPv4Offset).isSome → c.NodeRackShift ≠ 0 →
      (parseCIDR c.BMCIPv4Offset).isSome → c.BMCRackShift ≠ 0 → c.NodeIPPerNode = 0 →
      c.validate parseCIDR = some ("node-ip-per-node: " ++ ErrorValueNotFound)) ∧
    ((parseCIDR c.NodeIPv4Offset).isSome → c.NodeRackShift ≠ 0 →
      (parseCIDR c.BMCIPv4Offset).isSome → c.BMCRackShift ≠ 0 → c.NodeIPPerNode ≠ 0 →
      c.BMCIPPerNode = 0 →
      c.validate parseCIDR = some ("bmc-ip-per-node: " ++ ErrorValueNotFound)) ∧
    ErrorInvalidValue = "invalid value" ∧ ErrorValueNotFound = "value not found" := by
  unfold Config.validate
  cases h1 : parseCIDR c.NodeIPv4Offset <;> cases h2 : parseCIDR c.BMCIPv4Offset <;>
    by_cases h3 : c.NodeRackShift = 0 <;> by_cases h4 : c.BMCRackShift = 0 <;>
    by_cases h5 : c.NodeIPPerNode = 0 <;> by_cases h6 : c.BMCIPPerNode = 0 <;>
    simp [h3, h4, h5, h6, ErrorInvalidValue, ErrorValueNotFound]

end Sabakan
